import Mathlib

/-!
Verification of the authentication token lifecycle and request-admission
subsystem of strive-api (Go), shallowly embedded in Lean 4.

Time is modelled as `Int` Unix seconds. Go comparisons translate as:
`a.After(b)` is `a > b`, `a.Before(b)` is `a < b`, `a.Add(d)` is `a + d`.
Fallible operations return `Except`; database state is an explicit list of
rows; randomness (fresh UUIDs, fresh refresh-token hex strings) and the
current time are passed in as parameters.
-/

namespace StriveApi

/-- JWT configuration (internal/config/config.go `JWTConfig`): the HMAC
signing secret, issuer, audience, and clock-skew duration (seconds). -/
structure JWTConfig where
  secret : String
  issuer : String
  audience : String
  clockSkew : Int
deriving DecidableEq

/-- JWT signing algorithm declared in a token header. `HS256`, `HS384` and
`HS512` are the methods of type `*jwt.SigningMethodHMAC` in golang-jwt/v5;
the remaining constructors stand for the non-HMAC methods. -/
inductive Alg
| HS256
| HS384
| HS512
| RS256
| ES256
| algNone
deriving DecidableEq

/-- The Go type assertion `token.Method.(*jwt.SigningMethodHMAC)` succeeds
exactly for the HMAC-family methods. -/
def Alg.isHMAC : Alg → Bool
| .HS256 => true
| .HS384 => true
| .HS512 => true
| _ => false

/-- The claims carried by an access token (services.Claims embeds
`jwt.RegisteredClaims`): user id and email, plus the registered `iss`,
`aud` (list of strings), `iat`, `nbf`, `exp` fields; the three timestamps
are optional, as in the library, where an absent claim is a nil pointer. -/
structure TokenClaims where
  userID : String
  email : String
  issuer : String
  audience : List String
  iat : Option Int
  nbf : Option Int
  exp : Option Int
deriving DecidableEq

/-- A structurally well-formed JWT: the header's algorithm, the claims, and
the key under which the attached signature verifies (an HMAC signature
verifies under key `k` iff `k` is the key it was produced with; this
abstracts HMAC's unforgeability, as is standard). -/
structure Token where
  alg : Alg
  sigKey : String
  claims : TokenClaims
deriving DecidableEq

/-- A presented token string either fails the structural parse or decodes
to a `Token`. -/
inductive TokenString
| malformed
| token (t : Token)
deriving DecidableEq

/-- The distinct failure outcomes of `authService.ValidateToken`.
`malformed` is a structural parse failure; `invalidSignature` covers both
the keyfunc rejecting a non-HMAC method (services.ErrInvalidSignature) and
an HMAC signature that does not verify under the configured secret (the
library's signature-invalid error) — the spec's taxonomy groups both under
the `InvalidSignature` sub-kind. -/
inductive TokenError
| malformed
| invalidSignature
| tokenExpired
| tokenNotBefore
| invalidIssuer
| invalidAudience
deriving DecidableEq

/-- `authService.ValidateToken` (internal/services/auth_service.go lines
177–225). Parse with `jwt.WithoutClaimsValidation`: the keyfunc rejects any
non-HMAC method with `ErrInvalidSignature`, then the library verifies the
signature under the configured secret. The explicit claim checks follow in
source order: expiry (`now.After(exp.Add(clockSkew))`), not-before
(`now.Before(nbf.Add(-clockSkew))`), issuer equality, then audience
(empty audience or configured audience not contained). An absent `exp` or
`nbf` (nil pointer) skips the corresponding check. -/
def ValidateToken (cfg : JWTConfig) (now : Int) (ts : TokenString) :
    Except TokenError TokenClaims :=
  match ts with
  | .malformed => .error .malformed
  | .token t =>
    if ¬ t.alg.isHMAC then .error .invalidSignature
    else if t.sigKey ≠ cfg.secret then .error .invalidSignature
    else
      let c := t.claims
      if (match c.exp with
          | some e => decide (now > e + cfg.clockSkew)
          | none => false) then .error .tokenExpired
      else if (match c.nbf with
          | some n => decide (now < n - cfg.clockSkew)
          | none => false) then .error .tokenNotBefore
      else if c.issuer ≠ cfg.issuer then .error .invalidIssuer
      else if c.audience.isEmpty then .error .invalidAudience
      else if ¬ c.audience.contains cfg.audience then .error .invalidAudience
      else .ok c

/-- A user row (internal/models): id (UUID as string), normalized email,
bcrypt password hash, timestamps. -/
structure User where
  id : String
  email : String
  passwordHash : String
  createdAt : Int
  updatedAt : Int
deriving DecidableEq

/-- `authService.generateToken` (auth_service.go lines 239–255): builds
claims with the configured issuer, singleton audience, `exp = now + ttl`,
`iat = nbf = now`, and signs with HS256 under the configured secret. -/
def generateToken (cfg : JWTConfig) (user : User) (now : Int) (ttl : Int) : Token :=
  { alg := .HS256
    sigKey := cfg.secret
    claims :=
      { userID := user.id
        email := user.email
        issuer := cfg.issuer
        audience := [cfg.audience]
        iat := some now
        nbf := some now
        exp := some (now + ttl) } }

/-- Access-token TTL fixed in `NewAuthService`: 15 minutes, in seconds. -/
def accessTTL : Int := 15 * 60

/-- Refresh-token TTL fixed in `NewAuthService`: 7 days, in seconds. -/
def refreshTTL : Int := 7 * 24 * 60 * 60

/-- A refresh-token row (internal/models, table refresh_tokens). -/
structure RefreshTokenRow where
  id : String
  userID : String
  token : String
  expiresAt : Int
  createdAt : Int
  updatedAt : Int
deriving DecidableEq

/-- The refresh-token store state: the rows of the refresh_tokens table. -/
abbrev Store := List RefreshTokenRow

/-- `refreshTokenRepository.GetByToken` (internal/database/database.go lines
114–135): `SELECT ... WHERE token = $1 AND expires_at > NOW()` — the row
whose token equals the argument and whose expiry lies strictly in the
future; any other case is a lookup failure. -/
def getByToken (store : Store) (now : Int) (tok : String) : Option RefreshTokenRow :=
  store.find? (fun r => r.token == tok && decide (r.expiresAt > now))

/-- `refreshTokenRepository.Delete`: `DELETE FROM refresh_tokens WHERE
token = $1`. -/
def deleteByToken (store : Store) (tok : String) : Store :=
  store.filter (fun r => ¬ r.token == tok)

/-- Fault injection for the three store calls `RefreshToken` makes: a set
flag means the corresponding database call fails with an infrastructure
error (timeout / unavailability) instead of executing. -/
structure StoreFaults where
  getFault : Bool
  deleteFault : Bool
  createFault : Bool
deriving DecidableEq

/-- The error outcomes of `authService.RefreshToken`, one per `return`
site: the generic "invalid refresh token", "user not found", "failed to
delete old refresh token", "failed to save new refresh token". -/
inductive RefreshErr
| invalidRefreshToken
| userNotFound
| deleteOldFailed
| saveNewFailed
deriving DecidableEq

/-- `authService.RefreshToken` (auth_service.go lines 136–175). Look up the
presented token; ANY error from `GetByToken` (absent row, expired row, or
an injected infrastructure fault) becomes the generic "invalid refresh
token". Then load the owning user, mint a new access token, draw the new
opaque refresh value (`newTok`, the fresh randomness), delete the old row,
insert the new row. The result pairs the outcome with the store state
after the call. -/
def RefreshTokenOp (cfg : JWTConfig) (users : List User) (faults : StoreFaults)
    (store : Store) (now : Int) (newID : String) (newTok : String)
    (presented : String) : Except RefreshErr (Token × String) × Store :=
  if faults.getFault then (.error .invalidRefreshToken, store)
  else
    match getByToken store now presented with
    | none => (.error .invalidRefreshToken, store)
    | some row =>
      match users.find? (fun u => u.id == row.userID) with
      | none => (.error .userNotFound, store)
      | some user =>
        let accessToken := generateToken cfg user now accessTTL
        if faults.deleteFault then (.error .deleteOldFailed, store)
        else
          let store1 := deleteByToken store presented
          if faults.createFault then (.error .saveNewFailed, store1)
          else
            let newRow : RefreshTokenRow :=
              { id := newID, userID := user.id, token := newTok
                expiresAt := now + refreshTTL, createdAt := now, updatedAt := now }
            (.ok (accessToken, newTok), store1 ++ [newRow])

/-- Go `unicode.IsSpace` on the characters relevant to email input:
tab, newline, vertical tab, form feed, carriage return, space, next line
(U+0085) and no-break space (U+00A0). -/
def goIsSpace (c : Char) : Bool :=
  c.toNat = 9 || c.toNat = 10 || c.toNat = 11 || c.toNat = 12 ||
  c.toNat = 13 || c.toNat = 32 || c.toNat = 133 || c.toNat = 160

/-- Go `strings.ToLower` on a single character (ASCII range): an uppercase
letter A–Z is shifted to its lowercase form, everything else is unchanged. -/
def goToLower (c : Char) : Char :=
  if h : 65 ≤ c.toNat ∧ c.toNat ≤ 90 then
    Char.ofNatAux (c.toNat + 32) (Or.inl (by omega))
  else c

/-- Go `strings.TrimSpace`, leading side: drop leading whitespace. -/
def trimLeft (l : List Char) : List Char := l.dropWhile goIsSpace

/-- Go `strings.TrimSpace`, trailing side: drop trailing whitespace. -/
def trimRight (l : List Char) : List Char :=
  (l.reverse.dropWhile goIsSpace).reverse

/-- Go `strings.TrimSpace`: drop leading and trailing whitespace. -/
def trimSpace (l : List Char) : List Char := trimRight (trimLeft l)

/-- Go `strings.ToLower` over a rune sequence. -/
def toLowerList (l : List Char) : List Char := l.map goToLower

/-- `normalizeEmail` (auth_service.go lines 66–68):
`strings.ToLower(strings.TrimSpace(email))`, on the rune sequence. -/
def normalizeEmailChars (l : List Char) : List Char := toLowerList (trimSpace l)

/-- `normalizeEmail` lifted to `String`. -/
def normalizeEmail (s : String) : String := ⟨normalizeEmailChars s.data⟩

/-- The error outcomes of `authService.Login`: the generic "invalid
credentials" (returned both when the user lookup fails and when the
password does not verify), and "failed to save refresh token" when the
store insert fails. Token generation cannot fail in the model. -/
inductive LoginErr
| invalidCredentials
| saveRefreshFailed
deriving DecidableEq

/-- `authService.Login` (auth_service.go lines 97–134). The bcrypt check
`VerifyPassword` is abstracted by the parameter `verify` (hash → password
→ ok). Looks up the user by the normalized email; on lookup failure or
password mismatch, `addLoginDelay` sleeps 500 ms and the generic
"invalid credentials" error is returned. On success a fresh access token
and refresh row (fresh id `newID`, fresh opaque value `newTok`) are
produced. The result carries the outcome, the store state after the call,
and the artificial delay applied in milliseconds (500 on the two
credential-failure paths, 0 otherwise). -/
def LoginOp (cfg : JWTConfig) (verify : String → String → Bool)
    (users : List User) (createFault : Bool) (store : Store) (now : Int)
    (newID : String) (newTok : String) (email : String) (password : String) :
    Except LoginErr (Token × String) × Store × Nat :=
  match users.find? (fun u => u.email == normalizeEmail email) with
  | none => (.error .invalidCredentials, store, 500)
  | some user =>
    if ¬ verify user.passwordHash password then
      (.error .invalidCredentials, store, 500)
    else
      let accessToken := generateToken cfg user now accessTTL
      if createFault then (.error .saveRefreshFailed, store, 0)
      else
        let row : RefreshTokenRow :=
          { id := newID, userID := user.id, token := newTok
            expiresAt := now + refreshTTL, createdAt := now, updatedAt := now }
        (.ok (accessToken, newTok), store ++ [row], 0)

/-- Rate-limit configuration (internal/config/config.go
`RateLimitConfig`). -/
structure RateLimitConfig where
  enabled : Bool
  authRequestsPerMinute : Nat
  generalRequestsPerMinute : Nat
deriving DecidableEq

/-- The rate limiter's bucket map `requests map[string][]time.Time`,
keyed by client identifier; an absent key reads as the empty sequence. -/
abbrev Buckets := String → List Int

/-- `RateLimiter.isAllowed` (rate-limit middleware file, lines 36–64):
`windowStart = now - 60s`; keep the client's timestamps strictly after
`windowStart`; if at least `limit` remain, reject and leave the map
unchanged (the pruned list is not written back on rejection); otherwise
record `now` for this client and accept. -/
def isAllowed (now : Int) (m : Buckets) (clientID : String) (limit : Nat) :
    Bool × Buckets :=
  let windowStart := now - 60
  let validRequests := (m clientID).filter (fun t => decide (t > windowStart))
  if limit ≤ validRequests.length then (false, m)
  else (true, fun c => if c = clientID then validRequests ++ [now] else m c)

/-- `isAuthEndpoint` (same file, lines 147–160): exact match against the
fixed list of authentication paths. -/
def isAuthEndpoint (path : String) : Bool :=
  ["/api/v1/auth/login", "/api/v1/auth/register", "/api/v1/auth/refresh"].contains path

/-- The per-request outcome of `RateLimiter.RateLimitMiddleware`:
either the request is passed to the next handler, or it is terminated
with HTTP 429, a Retry-After: 60 header and the structured
RATE_LIMIT_EXCEEDED body (`writeRateLimitError`). -/
inductive MWOutcome
| pass
| reject429RetryAfter60
deriving DecidableEq

/-- One request through `RateLimiter.RateLimitMiddleware` (lines 113–145):
when disabled, a no-op pass-through; otherwise the limit is the auth
limit when the path is an authentication path and the general limit
otherwise, and `isAllowed` is consulted under the client identifier
(derived by `getClientIP`, a parameter here). -/
def rateLimitStep (cfg : RateLimitConfig) (now : Int) (m : Buckets)
    (clientID : String) (path : String) : MWOutcome × Buckets :=
  if ¬ cfg.enabled then (.pass, m)
  else
    let limit := if isAuthEndpoint path then cfg.authRequestsPerMinute
                 else cfg.generalRequestsPerMinute
    match isAllowed now m clientID limit with
    | (true, m1) => (.pass, m1)
    | (false, m1) => (.reject429RetryAfter60, m1)

/-! ### Theorems -/

/-- C2 counterexample: a structurally valid token whose header declares
HS384 (an algorithm other than HMAC-SHA256) and whose HS384 signature
verifies under the configured secret is ACCEPTED by `ValidateToken`, not
rejected with `InvalidSignature`: the keyfunc's type assertion
`token.Method.(*jwt.SigningMethodHMAC)` admits the whole HMAC family. -/
theorem C2_counterexample :
    (Token.mk .HS384 "secret-1"
      ⟨"u1", "u1@x.com", "iss-1", ["aud-1"], some 0, some 0, some 2000⟩).alg ≠ Alg.HS256 ∧
    ValidateToken ⟨"secret-1", "iss-1", "aud-1", 120⟩ 1000
      (.token (Token.mk .HS384 "secret-1"
        ⟨"u1", "u1@x.com", "iss-1", ["aud-1"], some 0, some 0, some 2000⟩)) =
      .ok ⟨"u1", "u1@x.com", "iss-1", ["aud-1"], some 0, some 0, some 2000⟩ :=
  ⟨by decide, rfl⟩

/-- C2 (amended): `ValidateToken` fails with the `InvalidSignature` error
for every token whose signing algorithm is outside the HMAC family, and
for every token whose signature does not verify under the configured
secret — the latter regardless of the token's claims, so the signature
check precedes every claim check — while a structural parse failure
surfaces as `Malformed`, never `InvalidSignature`. -/
theorem C2_signature_check (cfg : JWTConfig) (now : Int) (t : Token) :
    (t.alg.isHMAC = false → ValidateToken cfg now (.token t) = .error .invalidSignature) ∧
    (t.sigKey ≠ cfg.secret → ValidateToken cfg now (.token t) = .error .invalidSignature) ∧
    ValidateToken cfg now .malformed = .error .malformed := by
  refine ⟨fun h => ?_, fun h => ?_, rfl⟩
  · simp [ValidateToken, h]
  · by_cases halg : t.alg.isHMAC = true
    · simp [ValidateToken, halg, h]
    · simp [ValidateToken, halg]

/-- C2 witness: a well-signed RS256 token is rejected with
`InvalidSignature`, and so is an HS256 token signed under a different
secret (even with otherwise valid claims). -/
theorem C2_signature_check_witness :
    ValidateToken ⟨"secret-1", "iss-1", "aud-1", 120⟩ 1000
      (.token (Token.mk .RS256 "secret-1"
        ⟨"u1", "u1@x.com", "iss-1", ["aud-1"], some 0, some 0, some 2000⟩)) =
      .error .invalidSignature ∧
    ValidateToken ⟨"secret-1", "iss-1", "aud-1", 120⟩ 1000
      (.token (Token.mk .HS256 "other-secret"
        ⟨"u1", "u1@x.com", "iss-1", ["aud-1"], some 0, some 0, some 2000⟩)) =
      .error .invalidSignature :=
  ⟨(C2_signature_check _ _ _).1 (by decide),
   (C2_signature_check _ _ _).2.1 (by decide)⟩

/-- C3: for a well-formed token whose signature verifies under the
configured secret and which carries `exp = e`, `ValidateToken` returns
`TokenExpired` exactly when `now > e + clockSkew`; in particular a token
with `exp = now - clockSkew - 1` is rejected as expired, and an
otherwise-valid token with `exp = now - clockSkew + 1` passes the expiry
check and is accepted. -/
theorem C3_expiry_boundary (cfg : JWTConfig) (now e : Int) (t : Token)
    (halg : t.alg.isHMAC = true) (hsig : t.sigKey = cfg.secret)
    (hexp : t.claims.exp = some e) :
    (ValidateToken cfg now (.token t) = .error .tokenExpired ↔ now > e + cfg.clockSkew) ∧
    (e = now - cfg.clockSkew - 1 → ValidateToken cfg now (.token t) = .error .tokenExpired) ∧
    (e = now - cfg.clockSkew + 1 →
      (∀ n, t.claims.nbf = some n → ¬ now < n - cfg.clockSkew) →
      t.claims.issuer = cfg.issuer →
      t.claims.audience.contains cfg.audience = true →
      ValidateToken cfg now (.token t) = .ok t.claims) := by
  have hexpired : ∀ (h : now > e + cfg.clockSkew),
      ValidateToken cfg now (.token t) = .error .tokenExpired := by
    intro h
    simp [ValidateToken, halg, hsig, hexp, h]
  refine ⟨⟨fun hres => ?_, hexpired⟩, fun he => hexpired (by omega), fun he hnbf hiss haud => ?_⟩
  · by_contra hgt
    simp only [ValidateToken, halg, hsig, hexp] at hres
    simp only [Bool.not_eq_true, decide_eq_true_eq] at hres
    rw [if_neg (by simp), if_neg (by simp [hsig]), if_neg (by simpa using hgt)] at hres
    split at hres
    · exact TokenError.noConfusion (Except.error.inj hres)
    · split at hres
      · exact TokenError.noConfusion (Except.error.inj hres)
      · split at hres
        · exact TokenError.noConfusion (Except.error.inj hres)
        · split at hres
          · exact TokenError.noConfusion (Except.error.inj hres)
          · exact Except.noConfusion hres
  · have haudne : t.claims.audience.isEmpty = false := by
      cases ha : t.claims.audience with
      | nil => rw [ha] at haud; simp at haud
      | cons a l => simp [ha]
    have hnbf2 : (match t.claims.nbf with
        | some n => decide (now < n - cfg.clockSkew)
        | none => false) = false := by
      cases hn : t.claims.nbf with
      | none => rfl
      | some n => simpa using hnbf n hn
    have hmem : cfg.audience ∈ t.claims.audience := by simpa using haud
    simp only [ValidateToken, halg, hsig, hexp, he, hnbf2, hiss, haudne, haud]
    simp only [Bool.not_eq_true, decide_eq_true_eq]
    rw [if_neg (by simp), if_neg (by simp [hsig])]
    rw [if_neg (by omega)]
    simp [hmem]

/-- C3 witness: with secret "s", clock skew 120 s and now = 1000, a token
with `exp = 879 = now - skew - 1` is rejected as expired and an
otherwise-valid token with `exp = 881 = now - skew + 1` is accepted. -/
theorem C3_expiry_boundary_witness :
    ValidateToken ⟨"s", "iss", "aud", 120⟩ 1000
      (.token (Token.mk .HS256 "s" ⟨"u", "e", "iss", ["aud"], some 0, some 0, some 879⟩)) =
      .error .tokenExpired ∧
    ValidateToken ⟨"s", "iss", "aud", 120⟩ 1000
      (.token (Token.mk .HS256 "s" ⟨"u", "e", "iss", ["aud"], some 0, some 0, some 881⟩)) =
      .ok ⟨"u", "e", "iss", ["aud"], some 0, some 0, some 881⟩ :=
  ⟨(C3_expiry_boundary ⟨"s", "iss", "aud", 120⟩ 1000 879 _ (by decide) rfl rfl).2.1 (by decide),
   (C3_expiry_boundary ⟨"s", "iss", "aud", 120⟩ 1000 881 _ (by decide) rfl rfl).2.2
     (by decide) (by intro n hn; simp at hn; subst hn; decide) rfl (by decide)⟩

/-- C9: `ValidateToken` skips the expiry check when the token carries no
`exp` claim — such a token is never rejected with `TokenExpired`, at any
point in time — and skips the not-before check when it carries no `nbf`
claim: a well-signed HMAC token with matching issuer and audience and
neither `exp` nor `nbf` is accepted at every time `now`, an unbounded
validity window. -/
theorem C9_missing_exp_unbounded (cfg : JWTConfig) (now : Int) (t : Token)
    (hexp : t.claims.exp = none) :
    ValidateToken cfg now (.token t) ≠ .error .tokenExpired ∧
    (t.claims.nbf = none → t.alg.isHMAC = true → t.sigKey = cfg.secret →
      t.claims.issuer = cfg.issuer → t.claims.audience.contains cfg.audience = true →
      ValidateToken cfg now (.token t) = .ok t.claims) := by
  constructor
  · intro hres
    simp only [ValidateToken] at hres
    split at hres
    · simp_all
    · split at hres
      · simp_all
      · rw [if_neg (by simp [hexp])] at hres
        split at hres
        · exact TokenError.noConfusion (Except.error.inj hres)
        · split at hres
          · exact TokenError.noConfusion (Except.error.inj hres)
          · split at hres
            · exact TokenError.noConfusion (Except.error.inj hres)
            · split at hres
              · exact TokenError.noConfusion (Except.error.inj hres)
              · exact Except.noConfusion hres
  · intro hnbf halg hsig hiss haud
    have haudne : t.claims.audience.isEmpty = false := by
      cases ha : t.claims.audience with
      | nil => rw [ha] at haud; simp at haud
      | cons a l => simp [ha]
    have hmem : cfg.audience ∈ t.claims.audience := by simpa using haud
    simp [ValidateToken, halg, hsig, hexp, hnbf, hiss, haudne, hmem]

/-- C9 witness: a token with no `exp` and no `nbf`, well-signed with
matching issuer and audience, is accepted both at time 0 and ten years
later. -/
theorem C9_missing_exp_unbounded_witness :
    ValidateToken ⟨"s", "iss", "aud", 120⟩ 0
      (.token (Token.mk .HS256 "s" ⟨"u", "e", "iss", ["aud"], none, none, none⟩)) =
      .ok ⟨"u", "e", "iss", ["aud"], none, none, none⟩ ∧
    ValidateToken ⟨"s", "iss", "aud", 120⟩ 315360000
      (.token (Token.mk .HS256 "s" ⟨"u", "e", "iss", ["aud"], none, none, none⟩)) =
      .ok ⟨"u", "e", "iss", ["aud"], none, none, none⟩ :=
  ⟨(C9_missing_exp_unbounded ⟨"s", "iss", "aud", 120⟩ 0 _ rfl).2
      rfl (by decide) rfl rfl (by decide),
   (C9_missing_exp_unbounded ⟨"s", "iss", "aud", 120⟩ 315360000 _ rfl).2
      rfl (by decide) rfl rfl (by decide)⟩

/-- C6: the issue/validate round trip. For any user `U`, a token minted by
`generateToken` (the body of `IssueAccessToken`) under a configuration and
validated by `ValidateToken` under the same secret, issuer and audience,
at any time `now2` that is neither past expiry-plus-skew nor before
issuance-minus-skew, is accepted, and the returned claims carry `user_id`
and `email` identical to `U`'s. -/
theorem C6_round_trip (cfg : JWTConfig) (user : User) (now ttl now2 : Int)
    (hexp : ¬ now2 > now + ttl + cfg.clockSkew)
    (hnbf : ¬ now2 < now - cfg.clockSkew) :
    ValidateToken cfg now2 (.token (generateToken cfg user now ttl)) =
      .ok (generateToken cfg user now ttl).claims ∧
    (generateToken cfg user now ttl).claims.userID = user.id ∧
    (generateToken cfg user now ttl).claims.email = user.email := by
  refine ⟨?_, rfl, rfl⟩
  simp [ValidateToken, generateToken, Alg.isHMAC, hexp, hnbf]

/-- C6 witness: a token issued at time 1000 with the 15-minute access TTL
and validated at time 1500 under the same configuration round-trips the
user's id and email. -/
theorem C6_round_trip_witness :
    ValidateToken ⟨"s", "iss", "aud", 120⟩ 1500
      (.token (generateToken ⟨"s", "iss", "aud", 120⟩
        ⟨"u1", "u1@x.com", "h", 0, 0⟩ 1000 accessTTL)) =
      .ok (generateToken ⟨"s", "iss", "aud", 120⟩
        ⟨"u1", "u1@x.com", "h", 0, 0⟩ 1000 accessTTL).claims ∧
    (generateToken ⟨"s", "iss", "aud", 120⟩
        ⟨"u1", "u1@x.com", "h", 0, 0⟩ 1000 accessTTL).claims.userID = "u1" ∧
    (generateToken ⟨"s", "iss", "aud", 120⟩
        ⟨"u1", "u1@x.com", "h", 0, 0⟩ 1000 accessTTL).claims.email = "u1@x.com" :=
  C6_round_trip ⟨"s", "iss", "aud", 120⟩ ⟨"u1", "u1@x.com", "h", 0, 0⟩ 1000 accessTTL 1500
    (by decide) (by decide)

/-- After deleting every row holding token `tok` and inserting a row
holding a different token, no lookup of `tok` can succeed, at any time. -/
theorem getByToken_after_rotation (store : Store) (now2 : Int) (tok : String)
    (row : RefreshTokenRow) (hne : row.token ≠ tok) :
    getByToken (deleteByToken store tok ++ [row]) now2 tok = none := by
  rw [getByToken, List.find?_eq_none]
  intro r hr
  rcases List.mem_append.mp hr with hmem | hmem
  · have hkeep := (List.mem_filter.mp hmem).2
    simp only [decide_eq_true_eq] at hkeep
    simp [hkeep]
  · have : r = row := by simpa using hmem
    subst this
    simp [hne]

/-- C1: single-use rotation. If `RefreshToken(t)` succeeds — leaving the
store with `t`'s row deleted and the freshly drawn row created — then a
second `RefreshToken(t)` against the resulting store fails with the
generic invalid-refresh-token error, at any later time, under any user
table, configuration, fresh randomness, and store fault pattern: the
presented token is unusable after one successful rotation. The freshness
hypothesis `newTok ≠ presented` states that the 32 random bytes drawn for
the replacement do not reproduce the presented token. -/
theorem C1_single_use_rotation (cfg cfg2 : JWTConfig) (users users2 : List User)
    (f1 f2 : StoreFaults) (store store1 : Store) (now now2 : Int)
    (newID newTok newID2 newTok2 presented : String) (pair : Token × String)
    (hrun : RefreshTokenOp cfg users f1 store now newID newTok presented =
      (.ok pair, store1))
    (hfresh : newTok ≠ presented) :
    (RefreshTokenOp cfg2 users2 f2 store1 now2 newID2 newTok2 presented).1 =
      .error .invalidRefreshToken := by
  have hstore1 : getByToken store1 now2 presented = none := by
    rw [RefreshTokenOp] at hrun
    split at hrun
    · simp at hrun
    · split at hrun
      · simp at hrun
      · split at hrun
        · simp at hrun
        · split at hrun
          · simp at hrun
          · split at hrun
            · simp at hrun
            · rw [Prod.mk.injEq] at hrun
              rw [← hrun.2]
              exact getByToken_after_rotation store now2 presented _ hfresh
  rw [RefreshTokenOp]
  split
  · rfl
  · rw [hstore1]

/-- C1 witness: a concrete successful rotation of token "tok0" (one valid
row, one user, no store faults), after which presenting "tok0" again
fails with the generic invalid-refresh-token error. -/
theorem C1_single_use_rotation_witness :
    (RefreshTokenOp ⟨"s", "iss", "aud", 120⟩ [⟨"u1", "u1@x.com", "h", 0, 0⟩]
        ⟨false, false, false⟩ [⟨"r1", "u1", "tok0", 100, 0, 0⟩] 5 "r2" "tok1" "tok0").2.length = 1 ∧
    (RefreshTokenOp ⟨"s", "iss", "aud", 120⟩ [⟨"u1", "u1@x.com", "h", 0, 0⟩]
        ⟨false, false, false⟩
        ((RefreshTokenOp ⟨"s", "iss", "aud", 120⟩ [⟨"u1", "u1@x.com", "h", 0, 0⟩]
          ⟨false, false, false⟩ [⟨"r1", "u1", "tok0", 100, 0, 0⟩] 5 "r2" "tok1" "tok0").2)
        6 "r3" "tok2" "tok0").1 = .error .invalidRefreshToken :=
  ⟨rfl,
   C1_single_use_rotation ⟨"s", "iss", "aud", 120⟩ ⟨"s", "iss", "aud", 120⟩
     [⟨"u1", "u1@x.com", "h", 0, 0⟩] [⟨"u1", "u1@x.com", "h", 0, 0⟩]
     ⟨false, false, false⟩ ⟨false, false, false⟩
     [⟨"r1", "u1", "tok0", 100, 0, 0⟩] _ 5 6 "r2" "tok1" "r3" "tok2" "tok0"
     (generateToken ⟨"s", "iss", "aud", 120⟩ ⟨"u1", "u1@x.com", "h", 0, 0⟩ 5 accessTTL, "tok1")
     rfl (by decide)⟩

/-- C4 counterexample: with a store state in which the presented token's
row exists and is unexpired, an infrastructure failure (timeout or
unavailability) of the `GetByToken` call makes `RefreshToken` return the
generic invalid-refresh-token error — the very same error returned when
the token is absent — rather than a distinct retryable internal error. -/
theorem C4_counterexample :
    (RefreshTokenOp ⟨"s", "iss", "aud", 120⟩ [⟨"u1", "u1@x.com", "h", 0, 0⟩]
        ⟨true, false, false⟩ [⟨"r1", "u1", "tok0", 100, 0, 0⟩] 5 "r2" "tok1" "tok0").1 =
      .error .invalidRefreshToken ∧
    (RefreshTokenOp ⟨"s", "iss", "aud", 120⟩ [⟨"u1", "u1@x.com", "h", 0, 0⟩]
        ⟨false, false, false⟩ [] 5 "r2" "tok1" "tok0").1 =
      .error .invalidRefreshToken :=
  ⟨rfl, rfl⟩

/-- C4 (amended): a timeout/unavailability failure of the initial
`GetByToken` lookup inside `RefreshToken` is surfaced as the same generic
invalid-refresh-token error as an absent or expired token — it is reported
as "invalid token", not as a distinct retryable internal error; only
failures of the subsequent `Delete` and `Create` store calls surface as
internal errors distinct from the invalid-refresh-token failure. -/
theorem C4_store_fault_surfacing (cfg : JWTConfig) (users : List User)
    (store : Store) (now : Int) (newID newTok presented : String) :
    (∀ f : StoreFaults, f.getFault = true →
      (RefreshTokenOp cfg users f store now newID newTok presented).1 =
        .error .invalidRefreshToken) ∧
    (∀ f : StoreFaults, ∀ row : RefreshTokenRow, ∀ user : User,
      f.getFault = false → f.deleteFault = true →
      getByToken store now presented = some row →
      users.find? (fun u => u.id == row.userID) = some user →
      (RefreshTokenOp cfg users f store now newID newTok presented).1 =
        .error .deleteOldFailed) ∧
    (∀ f : StoreFaults, ∀ row : RefreshTokenRow, ∀ user : User,
      f.getFault = false → f.deleteFault = false → f.createFault = true →
      getByToken store now presented = some row →
      users.find? (fun u => u.id == row.userID) = some user →
      (RefreshTokenOp cfg users f store now newID newTok presented).1 =
        .error .saveNewFailed) ∧
    RefreshErr.deleteOldFailed ≠ RefreshErr.invalidRefreshToken ∧
    RefreshErr.saveNewFailed ≠ RefreshErr.invalidRefreshToken := by
  refine ⟨fun f hf => ?_, fun f row user hg hd hrow huser => ?_,
    fun f row user hg hd hc hrow huser => ?_, by decide, by decide⟩
  · simp [RefreshTokenOp, hf]
  · simp [RefreshTokenOp, hg, hd, hrow, huser]
  · simp [RefreshTokenOp, hg, hd, hc, hrow, huser]

/-- C4 witness: on a store holding the unexpired row for "tok0" and its
owning user, a `GetByToken` fault yields the invalid-refresh-token error
while `Delete` and `Create` faults yield the two distinct internal
errors. -/
theorem C4_store_fault_surfacing_witness :
    (RefreshTokenOp ⟨"s", "iss", "aud", 120⟩ [⟨"u1", "u1@x.com", "h", 0, 0⟩]
        ⟨true, false, false⟩ [⟨"r1", "u1", "tok0", 100, 0, 0⟩] 5 "r2" "tok1" "tok0").1 =
      .error .invalidRefreshToken ∧
    (RefreshTokenOp ⟨"s", "iss", "aud", 120⟩ [⟨"u1", "u1@x.com", "h", 0, 0⟩]
        ⟨false, true, false⟩ [⟨"r1", "u1", "tok0", 100, 0, 0⟩] 5 "r2" "tok1" "tok0").1 =
      .error .deleteOldFailed ∧
    (RefreshTokenOp ⟨"s", "iss", "aud", 120⟩ [⟨"u1", "u1@x.com", "h", 0, 0⟩]
        ⟨false, false, true⟩ [⟨"r1", "u1", "tok0", 100, 0, 0⟩] 5 "r2" "tok1" "tok0").1 =
      .error .saveNewFailed :=
  ⟨(C4_store_fault_surfacing ⟨"s", "iss", "aud", 120⟩ [⟨"u1", "u1@x.com", "h", 0, 0⟩]
      [⟨"r1", "u1", "tok0", 100, 0, 0⟩] 5 "r2" "tok1" "tok0").1 ⟨true, false, false⟩ rfl,
   (C4_store_fault_surfacing ⟨"s", "iss", "aud", 120⟩ [⟨"u1", "u1@x.com", "h", 0, 0⟩]
      [⟨"r1", "u1", "tok0", 100, 0, 0⟩] 5 "r2" "tok1" "tok0").2.1 ⟨false, true, false⟩
      ⟨"r1", "u1", "tok0", 100, 0, 0⟩ ⟨"u1", "u1@x.com", "h", 0, 0⟩ rfl rfl rfl rfl,
   (C4_store_fault_surfacing ⟨"s", "iss", "aud", 120⟩ [⟨"u1", "u1@x.com", "h", 0, 0⟩]
      [⟨"r1", "u1", "tok0", 100, 0, 0⟩] 5 "r2" "tok1" "tok0").2.2.1 ⟨false, false, true⟩
      ⟨"r1", "u1", "tok0", 100, 0, 0⟩ ⟨"u1", "u1@x.com", "h", 0, 0⟩ rfl rfl rfl rfl rfl⟩

/-- C5: whether `Login` fails because no user carries the normalized email
(`email1`) or because the password check fails for a user that does exist
(`email2`, password `pw2`), the outcome is the identical triple — the same
generic invalid-credentials error, an unchanged store, and the fixed
500 ms artificial delay applied before returning — so the two failure
causes are indistinguishable. -/
theorem C5_login_failures_indistinguishable (cfg : JWTConfig)
    (verify : String → String → Bool) (users : List User) (createFault : Bool)
    (store : Store) (now : Int) (newID newTok : String)
    (email1 pw1 email2 pw2 : String) (u : User)
    (h1 : users.find? (fun v => v.email == normalizeEmail email1) = none)
    (h2 : users.find? (fun v => v.email == normalizeEmail email2) = some u)
    (h3 : verify u.passwordHash pw2 = false) :
    LoginOp cfg verify users createFault store now newID newTok email1 pw1 =
      (.error .invalidCredentials, store, 500) ∧
    LoginOp cfg verify users createFault store now newID newTok email2 pw2 =
      (.error .invalidCredentials, store, 500) ∧
    LoginOp cfg verify users createFault store now newID newTok email1 pw1 =
      LoginOp cfg verify users createFault store now newID newTok email2 pw2 := by
  have e1 : LoginOp cfg verify users createFault store now newID newTok email1 pw1 =
      (.error .invalidCredentials, store, 500) := by
    simp [LoginOp, h1]
  have e2 : LoginOp cfg verify users createFault store now newID newTok email2 pw2 =
      (.error .invalidCredentials, store, 500) := by
    simp [LoginOp, h2, h3]
  exact ⟨e1, e2, e1.trans e2.symm⟩

/-- C5 witness: against a user table holding only u1@x.com, logging in as
the unknown b@x.com and logging in as u1@x.com with a wrong password both
produce the generic invalid-credentials error with the 500 ms delay, and
the two results are equal. -/
theorem C5_login_failures_indistinguishable_witness :
    LoginOp ⟨"s", "iss", "aud", 120⟩ (fun h p => h == p)
      [⟨"u1", "u1@x.com", "pw-hash", 0, 0⟩] false [] 5 "r1" "tok1" "b@x.com" "pw" =
      (.error .invalidCredentials, [], 500) ∧
    LoginOp ⟨"s", "iss", "aud", 120⟩ (fun h p => h == p)
      [⟨"u1", "u1@x.com", "pw-hash", 0, 0⟩] false [] 5 "r1" "tok1" "u1@x.com" "wrong" =
      (.error .invalidCredentials, [], 500) ∧
    LoginOp ⟨"s", "iss", "aud", 120⟩ (fun h p => h == p)
      [⟨"u1", "u1@x.com", "pw-hash", 0, 0⟩] false [] 5 "r1" "tok1" "b@x.com" "pw" =
    LoginOp ⟨"s", "iss", "aud", 120⟩ (fun h p => h == p)
      [⟨"u1", "u1@x.com", "pw-hash", 0, 0⟩] false [] 5 "r1" "tok1" "u1@x.com" "wrong" :=
  C5_login_failures_indistinguishable ⟨"s", "iss", "aud", 120⟩ (fun h p => h == p)
    [⟨"u1", "u1@x.com", "pw-hash", 0, 0⟩] false [] 5 "r1" "tok1"
    "b@x.com" "pw" "u1@x.com" "wrong" ⟨"u1", "u1@x.com", "pw-hash", 0, 0⟩ rfl rfl rfl

/-- When fewer in-window timestamps than the limit remain, `isAllowed`
records the current time for the client and accepts. -/
theorem isAllowed_accept (now : Int) (m : Buckets) (cid : String) (limit : Nat)
    (h : ((m cid).filter (fun t => decide (t > now - 60))).length < limit) :
    isAllowed now m cid limit =
      (true, fun c => if c = cid then
        ((m cid).filter (fun t => decide (t > now - 60))) ++ [now] else m c) := by
  simp only [isAllowed]
  rw [if_neg (by omega)]

/-- When at least `limit` in-window timestamps remain, `isAllowed` rejects
and leaves the bucket map unchanged: the rejected request is not
recorded. -/
theorem isAllowed_reject (now : Int) (m : Buckets) (cid : String) (limit : Nat)
    (h : limit ≤ ((m cid).filter (fun t => decide (t > now - 60))).length) :
    isAllowed now m cid limit = (false, m) := by
  simp only [isAllowed]
  rw [if_pos h]

/-- `rateLimitStep` in the accepting case, with the path-selected limit. -/
theorem rateLimitStep_accept (cfg : RateLimitConfig) (now : Int) (m : Buckets)
    (cid path : String) (hen : cfg.enabled = true)
    (h : ((m cid).filter (fun t => decide (t > now - 60))).length <
      (if isAuthEndpoint path then cfg.authRequestsPerMinute
       else cfg.generalRequestsPerMinute)) :
    rateLimitStep cfg now m cid path =
      (.pass, fun c => if c = cid then
        ((m cid).filter (fun t => decide (t > now - 60))) ++ [now] else m c) := by
  simp only [rateLimitStep, hen, Bool.not_true, if_false]
  rw [isAllowed_accept now m cid _ h]
  simp

/-- `rateLimitStep` in the rejecting case, with the path-selected limit. -/
theorem rateLimitStep_reject (cfg : RateLimitConfig) (now : Int) (m : Buckets)
    (cid path : String) (hen : cfg.enabled = true)
    (h : (if isAuthEndpoint path then cfg.authRequestsPerMinute
          else cfg.generalRequestsPerMinute) ≤
         ((m cid).filter (fun t => decide (t > now - 60))).length) :
    rateLimitStep cfg now m cid path = (.reject429RetryAfter60, m) := by
  simp only [rateLimitStep, hen, Bool.not_true, if_false]
  rw [isAllowed_reject now m cid _ h]
  simp

/-- C7: `isAllowed` computes `windowStart = now - 60`, counts only the
client's timestamps strictly after `windowStart`, rejects when that count
reaches the limit — leaving the map unchanged, so the rejected request is
not recorded — and otherwise appends `now` and accepts. Consequently,
with the auth limit set to 3 and an authentication path, three requests
from one client within a 60-second span are passed through, the fourth is
terminated with HTTP 429 (and the buckets are untouched by it), while a
different client's request in the same window still passes. -/
theorem C7_sliding_window_limit (cfg : RateLimitConfig) (c c2 p : String)
    (t1 t2 t3 t4 : Int)
    (hen : cfg.enabled = true) (hlim : cfg.authRequestsPerMinute = 3)
    (hp : isAuthEndpoint p = true)
    (h12 : t1 ≤ t2) (h23 : t2 ≤ t3) (h34 : t3 ≤ t4)
    (hwin : t4 - 60 < t1) (hc : c2 ≠ c) :
    (∀ now : Int, ∀ m : Buckets, ∀ cid : String, ∀ lim : Nat,
      lim ≤ ((m cid).filter (fun t => decide (t > now - 60))).length →
      isAllowed now m cid lim = (false, m)) ∧
    (∀ now : Int, ∀ m : Buckets, ∀ cid : String, ∀ lim : Nat,
      ((m cid).filter (fun t => decide (t > now - 60))).length < lim →
      isAllowed now m cid lim =
        (true, fun x => if x = cid then
          ((m cid).filter (fun t => decide (t > now - 60))) ++ [now] else m x)) ∧
    rateLimitStep cfg t1 (fun _ => []) c p =
      (.pass, fun x => if x = c then [t1] else []) ∧
    rateLimitStep cfg t2 (fun x => if x = c then [t1] else []) c p =
      (.pass, fun x => if x = c then [t1, t2] else []) ∧
    rateLimitStep cfg t3 (fun x => if x = c then [t1, t2] else []) c p =
      (.pass, fun x => if x = c then [t1, t2, t3] else []) ∧
    rateLimitStep cfg t4 (fun x => if x = c then [t1, t2, t3] else []) c p =
      (.reject429RetryAfter60, fun x => if x = c then [t1, t2, t3] else []) ∧
    (rateLimitStep cfg t4 (fun x => if x = c then [t1, t2, t3] else []) c2 p).1 = .pass := by
  have w1 : t2 - 60 < t1 := by omega
  have w2 : t3 - 60 < t1 := by omega
  have w3 : t3 - 60 < t2 := by omega
  have w4 : t4 - 60 < t1 := by omega
  have w5 : t4 - 60 < t2 := by omega
  have w6 : t4 - 60 < t3 := by omega
  refine ⟨isAllowed_reject, isAllowed_accept, ?_, ?_, ?_, ?_, ?_⟩
  · rw [rateLimitStep_accept cfg t1 _ c p hen (by simp [hp, hlim])]
    refine congrArg _ (funext fun x => ?_)
    by_cases hx : x = c <;> simp [hx]
  · rw [rateLimitStep_accept cfg t2 _ c p hen (by simp [hp, hlim, w1])]
    refine congrArg _ (funext fun x => ?_)
    by_cases hx : x = c <;> simp [hx, w1]
  · rw [rateLimitStep_accept cfg t3 _ c p hen (by simp [hp, hlim, w2, w3])]
    refine congrArg _ (funext fun x => ?_)
    by_cases hx : x = c <;> simp [hx, w2, w3]
  · exact rateLimitStep_reject cfg t4 _ c p hen (by simp [hp, hlim, w4, w5, w6])
  · rw [rateLimitStep_accept cfg t4 _ c2 p hen (by simp [hc, hp, hlim])]

/-- C7 witness: with the auth limit 3, client "a" is admitted at times
0, 1 and 2 on the login path, rejected with 429 at time 3, and client "b"
is still admitted at time 3. -/
theorem C7_sliding_window_limit_witness :
    (∀ now : Int, ∀ m : Buckets, ∀ cid : String, ∀ lim : Nat,
      lim ≤ ((m cid).filter (fun t => decide (t > now - 60))).length →
      isAllowed now m cid lim = (false, m)) ∧
    (∀ now : Int, ∀ m : Buckets, ∀ cid : String, ∀ lim : Nat,
      ((m cid).filter (fun t => decide (t > now - 60))).length < lim →
      isAllowed now m cid lim =
        (true, fun x => if x = cid then
          ((m cid).filter (fun t => decide (t > now - 60))) ++ [now] else m x)) ∧
    rateLimitStep ⟨true, 3, 60⟩ 0 (fun _ => []) "a" "/api/v1/auth/login" =
      (.pass, fun x => if x = "a" then [0] else []) ∧
    rateLimitStep ⟨true, 3, 60⟩ 1 (fun x => if x = "a" then [0] else []) "a" "/api/v1/auth/login" =
      (.pass, fun x => if x = "a" then [0, 1] else []) ∧
    rateLimitStep ⟨true, 3, 60⟩ 2 (fun x => if x = "a" then [0, 1] else []) "a" "/api/v1/auth/login" =
      (.pass, fun x => if x = "a" then [0, 1, 2] else []) ∧
    rateLimitStep ⟨true, 3, 60⟩ 3 (fun x => if x = "a" then [0, 1, 2] else []) "a" "/api/v1/auth/login" =
      (.reject429RetryAfter60, fun x => if x = "a" then [0, 1, 2] else []) ∧
    (rateLimitStep ⟨true, 3, 60⟩ 3 (fun x => if x = "a" then [0, 1, 2] else []) "b" "/api/v1/auth/login").1 = .pass :=
  C7_sliding_window_limit ⟨true, 3, 60⟩ "a" "b" "/api/v1/auth/login" 0 1 2 3
    rfl rfl (by decide) (by decide) (by decide) (by decide) (by decide) (by decide)

/-- C10: the rate limiter keeps exactly one timestamp sequence per client
identifier, shared across both limit classes. A step never touches another
client's entry, and its decision compares the path-selected limit against
the client's FULL in-window history, which records requests to all paths.
Hence with auth limit 3 and general limit 60, three requests by one client
to a non-auth path fill the window and a subsequent auth-path request is
rejected with 429; and conversely (auth limit 5, general limit 3), three
auth-path requests fill the window and a subsequent non-auth-path request
is rejected. -/
theorem C10_shared_bucket_across_paths (cfg : RateLimitConfig) (c pg pa : String)
    (t1 t2 t3 t4 : Int)
    (hen : cfg.enabled = true) (ha : cfg.authRequestsPerMinute = 3)
    (hg : cfg.generalRequestsPerMinute = 60)
    (hpg : isAuthEndpoint pg = false) (hpa : isAuthEndpoint pa = true)
    (h12 : t1 ≤ t2) (h23 : t2 ≤ t3) (h34 : t3 ≤ t4)
    (hwin : t4 - 60 < t1) :
    (∀ now : Int, ∀ m : Buckets, ∀ cid path x : String, x ≠ cid →
      (rateLimitStep cfg now m cid path).2 x = m x) ∧
    (∀ now : Int, ∀ m : Buckets, ∀ cid path : String,
      (rateLimitStep cfg now m cid path).1 = .pass ↔
        ((m cid).filter (fun t => decide (t > now - 60))).length <
          (if isAuthEndpoint path then cfg.authRequestsPerMinute
           else cfg.generalRequestsPerMinute)) ∧
    (rateLimitStep cfg t1 (fun _ => []) c pg =
      (.pass, fun x => if x = c then [t1] else []) ∧
     rateLimitStep cfg t2 (fun x => if x = c then [t1] else []) c pg =
      (.pass, fun x => if x = c then [t1, t2] else []) ∧
     rateLimitStep cfg t3 (fun x => if x = c then [t1, t2] else []) c pg =
      (.pass, fun x => if x = c then [t1, t2, t3] else []) ∧
     rateLimitStep cfg t4 (fun x => if x = c then [t1, t2, t3] else []) c pa =
      (.reject429RetryAfter60, fun x => if x = c then [t1, t2, t3] else [])) ∧
    (rateLimitStep ⟨true, 5, 3⟩ t1 (fun _ => []) c pa =
      (.pass, fun x => if x = c then [t1] else []) ∧
     rateLimitStep ⟨true, 5, 3⟩ t2 (fun x => if x = c then [t1] else []) c pa =
      (.pass, fun x => if x = c then [t1, t2] else []) ∧
     rateLimitStep ⟨true, 5, 3⟩ t3 (fun x => if x = c then [t1, t2] else []) c pa =
      (.pass, fun x => if x = c then [t1, t2, t3] else []) ∧
     rateLimitStep ⟨true, 5, 3⟩ t4 (fun x => if x = c then [t1, t2, t3] else []) c pg =
      (.reject429RetryAfter60, fun x => if x = c then [t1, t2, t3] else [])) := by
  have w1 : t2 - 60 < t1 := by omega
  have w2 : t3 - 60 < t1 := by omega
  have w3 : t3 - 60 < t2 := by omega
  have w4 : t4 - 60 < t1 := by omega
  have w5 : t4 - 60 < t2 := by omega
  have w6 : t4 - 60 < t3 := by omega
  refine ⟨?_, ?_, ⟨?_, ?_, ?_, ?_⟩, ⟨?_, ?_, ?_, ?_⟩⟩
  · intro now m cid path x hx
    by_cases hcmp : ((m cid).filter (fun t => decide (t > now - 60))).length <
        (if isAuthEndpoint path then cfg.authRequestsPerMinute
         else cfg.generalRequestsPerMinute)
    · rw [rateLimitStep_accept cfg now m cid path hen hcmp]
      simp [hx]
    · rw [rateLimitStep_reject cfg now m cid path hen (by omega)]
  · intro now m cid path
    by_cases hcmp : ((m cid).filter (fun t => decide (t > now - 60))).length <
        (if isAuthEndpoint path then cfg.authRequestsPerMinute
         else cfg.generalRequestsPerMinute)
    · rw [rateLimitStep_accept cfg now m cid path hen hcmp]
      simpa using hcmp
    · rw [rateLimitStep_reject cfg now m cid path hen (by omega)]
      constructor
      · intro hres
        exact MWOutcome.noConfusion hres
      · intro hlt
        exact absurd hlt hcmp
  · rw [rateLimitStep_accept cfg t1 _ c pg hen (by simp [hpg, hg])]
    refine congrArg _ (funext fun x => ?_)
    by_cases hx : x = c <;> simp [hx]
  · rw [rateLimitStep_accept cfg t2 _ c pg hen (by simp [hpg, hg, w1])]
    refine congrArg _ (funext fun x => ?_)
    by_cases hx : x = c <;> simp [hx, w1]
  · rw [rateLimitStep_accept cfg t3 _ c pg hen (by simp [hpg, hg, w2, w3])]
    refine congrArg _ (funext fun x => ?_)
    by_cases hx : x = c <;> simp [hx, w2, w3]
  · exact rateLimitStep_reject cfg t4 _ c pa hen (by simp [hpa, ha, w4, w5, w6])
  · rw [rateLimitStep_accept ⟨true, 5, 3⟩ t1 _ c pa rfl (by simp [hpa])]
    refine congrArg _ (funext fun x => ?_)
    by_cases hx : x = c <;> simp [hx]
  · rw [rateLimitStep_accept ⟨true, 5, 3⟩ t2 _ c pa rfl (by simp [hpa, w1])]
    refine congrArg _ (funext fun x => ?_)
    by_cases hx : x = c <;> simp [hx, w1]
  · rw [rateLimitStep_accept ⟨true, 5, 3⟩ t3 _ c pa rfl (by simp [hpa, w2, w3])]
    refine congrArg _ (funext fun x => ?_)
    by_cases hx : x = c <;> simp [hx, w2, w3]
  · exact rateLimitStep_reject ⟨true, 5, 3⟩ t4 _ c pg rfl (by simp [hpg, w4, w5, w6])

/-- C10 witness: three requests by client "a" to the non-auth path
"/api/v1/workouts" at times 0, 1, 2 are admitted, and the auth-path
request at time 3 is rejected — the auth limit is consumed by non-auth
traffic; conversely with limits (auth 5, general 3) three auth-path
requests are admitted and the non-auth request at time 3 is rejected. -/
theorem C10_shared_bucket_across_paths_witness :
    (∀ now : Int, ∀ m : Buckets, ∀ cid path x : String, x ≠ cid →
      (rateLimitStep ⟨true, 3, 60⟩ now m cid path).2 x = m x) ∧
    (∀ now : Int, ∀ m : Buckets, ∀ cid path : String,
      (rateLimitStep ⟨true, 3, 60⟩ now m cid path).1 = .pass ↔
        ((m cid).filter (fun t => decide (t > now - 60))).length <
          (if isAuthEndpoint path then (3 : Nat) else 60)) ∧
    (rateLimitStep ⟨true, 3, 60⟩ 0 (fun _ => []) "a" "/api/v1/workouts" =
      (.pass, fun x => if x = "a" then [0] else []) ∧
     rateLimitStep ⟨true, 3, 60⟩ 1 (fun x => if x = "a" then [0] else []) "a" "/api/v1/workouts" =
      (.pass, fun x => if x = "a" then [0, 1] else []) ∧
     rateLimitStep ⟨true, 3, 60⟩ 2 (fun x => if x = "a" then [0, 1] else []) "a" "/api/v1/workouts" =
      (.pass, fun x => if x = "a" then [0, 1, 2] else []) ∧
     rateLimitStep ⟨true, 3, 60⟩ 3 (fun x => if x = "a" then [0, 1, 2] else []) "a" "/api/v1/auth/login" =
      (.reject429RetryAfter60, fun x => if x = "a" then [0, 1, 2] else [])) ∧
    (rateLimitStep ⟨true, 5, 3⟩ 0 (fun _ => []) "a" "/api/v1/auth/login" =
      (.pass, fun x => if x = "a" then [0] else []) ∧
     rateLimitStep ⟨true, 5, 3⟩ 1 (fun x => if x = "a" then [0] else []) "a" "/api/v1/auth/login" =
      (.pass, fun x => if x = "a" then [0, 1] else []) ∧
     rateLimitStep ⟨true, 5, 3⟩ 2 (fun x => if x = "a" then [0, 1] else []) "a" "/api/v1/auth/login" =
      (.pass, fun x => if x = "a" then [0, 1, 2] else []) ∧
     rateLimitStep ⟨true, 5, 3⟩ 3 (fun x => if x = "a" then [0, 1, 2] else []) "a" "/api/v1/workouts" =
      (.reject429RetryAfter60, fun x => if x = "a" then [0, 1, 2] else [])) :=
  C10_shared_bucket_across_paths ⟨true, 3, 60⟩ "a" "/api/v1/workouts" "/api/v1/auth/login"
    0 1 2 3 rfl rfl rfl (by decide) (by decide) (by decide) (by decide) (by decide) (by decide)

/-- An uppercase ASCII letter is shifted down by 32. -/
theorem goToLower_toNat_of_upper (c : Char) (h : 65 ≤ c.toNat ∧ c.toNat ≤ 90) :
    (goToLower c).toNat = c.toNat + 32 := by
  rw [goToLower, dif_pos h]
  rfl

/-- Characters outside A–Z are unchanged by `goToLower`. -/
theorem goToLower_eq_of_not_upper (c : Char) (h : ¬ (65 ≤ c.toNat ∧ c.toNat ≤ 90)) :
    goToLower c = c := by
  rw [goToLower, dif_neg h]

/-- Lowercasing a character twice equals lowercasing it once. -/
theorem goToLower_idem (c : Char) : goToLower (goToLower c) = goToLower c := by
  by_cases h : 65 ≤ c.toNat ∧ c.toNat ≤ 90
  · have h2 := goToLower_toNat_of_upper c h
    exact goToLower_eq_of_not_upper _ (by omega)
  · rw [goToLower_eq_of_not_upper c h]
    exact goToLower_eq_of_not_upper c h

/-- Lowercasing neither creates nor destroys whitespace. -/
theorem goIsSpace_goToLower (c : Char) : goIsSpace (goToLower c) = goIsSpace c := by
  by_cases h : 65 ≤ c.toNat ∧ c.toNat ≤ 90
  · have h2 := goToLower_toNat_of_upper c h
    have hl : goIsSpace (goToLower c) = false := by
      simp only [goIsSpace, Bool.or_eq_false_iff, decide_eq_false_iff_not]
      omega
    have hr : goIsSpace c = false := by
      simp only [goIsSpace, Bool.or_eq_false_iff, decide_eq_false_iff_not]
      omega
    rw [hl, hr]
  · rw [goToLower_eq_of_not_upper c h]

/-- Dropping a whitespace head twice equals dropping it once. -/
theorem dropWhile_goIsSpace_idem (l : List Char) :
    (l.dropWhile goIsSpace).dropWhile goIsSpace = l.dropWhile goIsSpace := by
  induction l with
  | nil => rfl
  | cons a t ih =>
    by_cases hpa : goIsSpace a
    · simp [List.dropWhile_cons, hpa, ih]
    · simp [List.dropWhile_cons, hpa]

/-- `dropWhile` never lengthens a list. -/
theorem dropWhile_length_le (p : Char → Bool) (l : List Char) :
    (l.dropWhile p).length ≤ l.length := by
  induction l with
  | nil => simp
  | cons a t ih =>
    by_cases hpa : p a
    · simp [List.dropWhile_cons, hpa]
      omega
    · simp [List.dropWhile_cons, hpa]

/-- Lowercasing commutes with dropping leading whitespace. -/
theorem map_goToLower_dropWhile (l : List Char) :
    (l.map goToLower).dropWhile goIsSpace = (l.dropWhile goIsSpace).map goToLower := by
  rw [List.dropWhile_map]
  have hfun : (goIsSpace ∘ goToLower) = goIsSpace := funext goIsSpace_goToLower
  rw [hfun]

/-- Lowercasing commutes with the leading trim. -/
theorem trimLeft_toLowerList (l : List Char) :
    trimLeft (toLowerList l) = toLowerList (trimLeft l) := by
  rw [trimLeft, trimLeft, toLowerList, toLowerList, map_goToLower_dropWhile]

/-- Lowercasing commutes with the trailing trim. -/
theorem trimRight_toLowerList (l : List Char) :
    trimRight (toLowerList l) = toLowerList (trimRight l) := by
  rw [trimRight, trimRight, toLowerList, toLowerList, ← List.map_reverse,
    map_goToLower_dropWhile, List.map_reverse]

/-- Lowercasing commutes with the full trim. -/
theorem trimSpace_toLowerList (l : List Char) :
    trimSpace (toLowerList l) = toLowerList (trimSpace l) := by
  rw [trimSpace, trimSpace, trimLeft_toLowerList, trimRight_toLowerList]

/-- The trailing trim is idempotent. -/
theorem trimRight_idem (l : List Char) : trimRight (trimRight l) = trimRight l := by
  rw [trimRight, trimRight, List.reverse_reverse, dropWhile_goIsSpace_idem]

/-- A list with no leading whitespace keeps that property under the
trailing trim. -/
theorem trimLeft_trimRight_of_trimmed (a : List Char) (ha : trimLeft a = a) :
    trimLeft (trimRight a) = trimRight a := by
  cases a with
  | nil => rfl
  | cons h t =>
    have hph : goIsSpace h = false := by
      by_contra hcon
      rw [trimLeft, List.dropWhile_cons] at ha
      rw [if_pos (by simpa using hcon)] at ha
      have := dropWhile_length_le goIsSpace t
      rw [ha] at this
      simp at this
    rw [trimRight, List.reverse_cons, List.dropWhile_append]
    by_cases hemp : (t.reverse.dropWhile goIsSpace).isEmpty
    · rw [if_pos hemp]
      simp [List.dropWhile_cons, hph, trimLeft]
    · rw [if_neg hemp]
      rw [List.reverse_append]
      simp only [List.reverse_cons, List.reverse_nil, List.nil_append]
      rw [trimLeft, List.singleton_append, List.dropWhile_cons, if_neg (by simp [hph])]

/-- The full trim is idempotent. -/
theorem trimSpace_idem (l : List Char) : trimSpace (trimSpace l) = trimSpace l := by
  rw [trimSpace, trimSpace]
  rw [trimLeft_trimRight_of_trimmed (trimLeft l) (dropWhile_goIsSpace_idem l)]
  exact trimRight_idem (trimLeft l)

/-- Lowercasing a rune sequence twice equals lowercasing it once. -/
theorem toLowerList_idem (l : List Char) :
    toLowerList (toLowerList l) = toLowerList l := by
  induction l with
  | nil => rfl
  | cons a t ih =>
    simp only [toLowerList, List.map_cons] at ih ⊢
    rw [goToLower_idem]
    exact congrArg _ ih

/-- `normalizeEmail` is idempotent at the rune-sequence level. -/
theorem normalizeEmailChars_idem (l : List Char) :
    normalizeEmailChars (normalizeEmailChars l) = normalizeEmailChars l := by
  rw [normalizeEmailChars, normalizeEmailChars, trimSpace_toLowerList,
    trimSpace_idem, toLowerList_idem]

/-- `normalizeEmail` factors equally as lowercase-then-trim. -/
theorem normalizeEmailChars_eq_trim_lower (l : List Char) :
    normalizeEmailChars l = trimSpace (toLowerList l) := by
  rw [normalizeEmailChars, trimSpace_toLowerList]

/-- Dropping leading whitespace skips over an all-whitespace prefix. -/
theorem dropWhile_append_of_space (w l : List Char)
    (hw : ∀ ch ∈ w, goIsSpace ch = true) :
    (w ++ l).dropWhile goIsSpace = l.dropWhile goIsSpace := by
  induction w with
  | nil => rfl
  | cons a t ih =>
    rw [List.cons_append, List.dropWhile_cons, if_pos (by simp [hw a (by simp)])]
    exact ih (fun ch hch => hw ch (by simp [hch]))

/-- The trailing trim absorbs an all-whitespace suffix. -/
theorem trimRight_append_space (l w : List Char)
    (hw : ∀ ch ∈ w, goIsSpace ch = true) :
    trimRight (l ++ w) = trimRight l := by
  rw [trimRight, trimRight, List.reverse_append,
    dropWhile_append_of_space w.reverse l.reverse
      (fun ch hch => hw ch (List.mem_reverse.mp hch))]

/-- The full trim erases surrounding whitespace padding. -/
theorem trimSpace_padded (w1 w2 E : List Char)
    (h1 : ∀ ch ∈ w1, goIsSpace ch = true) (h2 : ∀ ch ∈ w2, goIsSpace ch = true) :
    trimSpace (w1 ++ E ++ w2) = trimSpace E := by
  rw [trimSpace, trimSpace, List.append_assoc, trimLeft, trimLeft,
    dropWhile_append_of_space w1 (E ++ w2) h1, List.dropWhile_append]
  by_cases hemp : (E.dropWhile goIsSpace).isEmpty
  · rw [if_pos hemp]
    have hw2 : w2.dropWhile goIsSpace = [] := by
      have hx := dropWhile_append_of_space w2 [] h2
      simpa using hx
    have hE : E.dropWhile goIsSpace = [] := List.isEmpty_iff.mp hemp
    rw [hw2, hE]
  · rw [if_neg hemp]
    exact trimRight_append_space _ w2 h2

/-- C8: `normalizeEmail` is idempotent; it is case-insensitive — any two
emails with the same lowercasing normalize identically — and it erases
surrounding whitespace, so a padded variant normalizes like the bare
email; consequently `Login`, which looks the user up by the normalized
email, behaves identically on any two inputs with equal normalizations
(in particular on any case or surrounding-whitespace variant of a
registered email). -/
theorem C8_normalize_email :
    (∀ E : String, normalizeEmail (normalizeEmail E) = normalizeEmail E) ∧
    (∀ e1 e2 : String, toLowerList e1.data = toLowerList e2.data →
      normalizeEmail e1 = normalizeEmail e2) ∧
    (∀ w1 w2 : List Char, ∀ E : String,
      (∀ ch ∈ w1, goIsSpace ch = true) → (∀ ch ∈ w2, goIsSpace ch = true) →
      normalizeEmail ⟨w1 ++ E.data ++ w2⟩ = normalizeEmail E) ∧
    (∀ (cfg : JWTConfig) (verify : String → String → Bool) (users : List User)
      (createFault : Bool) (store : Store) (now : Int) (newID newTok e1 e2 pw : String),
      normalizeEmail e1 = normalizeEmail e2 →
      LoginOp cfg verify users createFault store now newID newTok e1 pw =
        LoginOp cfg verify users createFault store now newID newTok e2 pw) := by
  refine ⟨fun E => ?_, fun e1 e2 h => ?_, fun w1 w2 E h1 h2 => ?_,
    fun cfg verify users cf store now nid ntk e1 e2 pw h => ?_⟩
  · exact congrArg String.mk (normalizeEmailChars_idem E.data)
  · simp only [normalizeEmail]
    rw [show (normalizeEmailChars e1.data) = normalizeEmailChars e2.data from by
      rw [normalizeEmailChars_eq_trim_lower, normalizeEmailChars_eq_trim_lower, h]]
  · exact congrArg String.mk (by
      rw [normalizeEmailChars, normalizeEmailChars, trimSpace_padded _ _ _ h1 h2])
  · simp only [LoginOp, h]

/-- C8 witness: normalizing "  User@Example.COM " twice changes nothing;
"TEST@X.com" and "test@x.COM" normalize identically; a space-padded
"x@y.com" normalizes like the bare one; and `Login` treats " U1@X.com"
exactly like "u1@x.com". -/
theorem C8_normalize_email_witness :
    normalizeEmail (normalizeEmail "  User@Example.COM ") =
      normalizeEmail "  User@Example.COM " ∧
    normalizeEmail "TEST@X.com" = normalizeEmail "test@x.COM" ∧
    normalizeEmail ⟨[' '] ++ "x@y.com".data ++ [' ']⟩ = normalizeEmail "x@y.com" ∧
    LoginOp ⟨"s", "iss", "aud", 120⟩ (fun h p => h == p) [⟨"u1", "u1@x.com", "pw", 0, 0⟩]
        false [] 5 "r1" "tok1" " U1@X.com" "pw" =
      LoginOp ⟨"s", "iss", "aud", 120⟩ (fun h p => h == p) [⟨"u1", "u1@x.com", "pw", 0, 0⟩]
        false [] 5 "r1" "tok1" "u1@x.com" "pw" :=
  ⟨(C8_normalize_email).1 "  User@Example.COM ",
   (C8_normalize_email).2.1 "TEST@X.com" "test@x.COM" rfl,
   (C8_normalize_email).2.2.1 [' '] [' '] "x@y.com" (by decide) (by decide),
   (C8_normalize_email).2.2.2 ⟨"s", "iss", "aud", 120⟩ (fun h p => h == p)
     [⟨"u1", "u1@x.com", "pw", 0, 0⟩] false [] 5 "r1" "tok1" " U1@X.com" "u1@x.com" "pw" rfl⟩

end StriveApi
